import Mathlib

/-!
Verification of the Network Node Health Registry of the x1-api-graphql
repository.

The proxy layer (internal/repository/enode.go) is embedded directly from the
source.  The persistence layer it delegates to (the db package's network-node
functions) is not part of the available sources; those functions are modelled
from the specification (spec.md §4.1-§4.2) and carry a doc comment saying so.

Timestamps are modelled as natural numbers (UTC instants; an unset lastCheck
is the epoch-zero value 0).  Machine integers of the record (the signed score)
are modelled as Int, the failure counter as Nat.  Store I/O failure is
modelled by two flags on the store state: ioFail makes the read/update
operations of the db layer fail with the generic store error, storeFail makes
the record-write operation (StoreNetworkNode) fail.
-/

namespace NodeRegistry

/-- A discovery-network peer: enode.Node, reduced to its stable public-key
derived identity and its network endpoint. -/
structure Node where
  id : Nat
  endpoint : Nat
deriving DecidableEq, Repr

/-- types.OperaNode: one peer's identity, endpoint and health state. -/
structure OperaNode where
  Node : Node
  Score : Int
  CheckFailureCount : Nat
  FirstResponse : Nat
  LastResponse : Nat
  LastCheck : Nat
deriving DecidableEq, Repr

/-- Errors of the db layer: the specific unknown-node error
(db.ErrUnknownNetworkNode in the source) and the generic store failure. -/
inductive DbErr where
  | ErrUnknownNetworkNode
  | ErrStoreFailure
deriving DecidableEq, Repr

/-- The persistent store state: the stored records plus the two
failure-injection flags described in the module comment. -/
structure DB where
  nodes : List OperaNode
  ioFail : Bool
  storeFail : Bool
deriving DecidableEq, Repr

/-- Point lookup of a record by node id in the stored list. -/
def findNode (nid : Nat) : List OperaNode → Option OperaNode
  | [] => none
  | r :: rs => if r.Node.id = nid then some r else findNode nid rs

/-- Idempotent full replace of a record keyed by id (spec §4.1 Upsert):
replaces the record with the same id when present, appends otherwise. -/
def upsert (r : OperaNode) : List OperaNode → List OperaNode
  | [] => [r]
  | x :: xs => if x.Node.id = r.Node.id then r :: xs else x :: upsert r xs

/-- Insert an element into a list ordered by the Bool comparison le, keeping
the order: the ordered-insert step of the store's sort. -/
def insertBy {α : Type} (le : α → α → Bool) (x : α) : List α → List α
  | [] => [x]
  | y :: ys => if le x y then x :: y :: ys else y :: insertBy le x ys

/-- Sort a list by the Bool comparison le (insertion sort): the ordering the
store applies to its time- and score-ordered queries. -/
def sortBy {α : Type} (le : α → α → Bool) : List α → List α
  | [] => []
  | x :: xs => insertBy le x (sortBy le xs)

/-- Modelled from the spec: db-level point lookup (spec §4.1 Lookup), absent
from the sources.  An absent id signals the specific unknown-node error, not
a generic one; an unreachable store signals the generic store failure. -/
def dbNetworkNode (db : DB) (nid : Nat) : Except DbErr OperaNode :=
  if db.ioFail then .error .ErrStoreFailure
  else
    match findNode nid db.nodes with
    | some r => .ok r
    | none => .error .ErrUnknownNetworkNode

/-- Modelled from the spec: db-level existence check (spec §4.1 Exists, §6
IsKnown -> bool), absent from the sources.  Its result type is a bare Bool
(matching the proxy signature in enode.go), so a store failure cannot be
reported and yields the default false. -/
def dbIsNetworkNodeKnown (db : DB) (nid : Nat) : Bool :=
  if db.ioFail then false else (findNode nid db.nodes).isSome

/-- Modelled from the spec: db-level record write (spec §4.1 Upsert), absent
from the sources.  Fails with the generic store error when the write fails. -/
def dbStoreNetworkNode (db : DB) (r : OperaNode) : Except DbErr DB :=
  if db.storeFail then .error .ErrStoreFailure
  else .ok { db with nodes := upsert r db.nodes }

/-- Modelled from the spec: db-level confirm transition (spec §4.2
ConfirmCheck step 2), absent from the sources.  On a stored id it sets
lastResponse and lastCheck to now, resets the failure counter, rewards the
score by +1 capped at the configured ceiling, and upserts; on an absent id it
signals the unknown-node error so the caller can create the record. -/
def dbNetworkNodeConfirmCheck (cap : Int) (db : DB) (nid : Nat) (now : Nat) :
    Except DbErr DB :=
  if db.ioFail then .error .ErrStoreFailure
  else
    match findNode nid db.nodes with
    | none => .error .ErrUnknownNetworkNode
    | some r =>
        .ok { db with
                nodes := upsert
                  { r with
                      LastResponse := now
                      LastCheck := now
                      CheckFailureCount := 0
                      Score := min (r.Score + 1) cap } db.nodes }

/-- Modelled from the spec: db-level fail transition (spec §4.2 FailCheck),
absent from the sources.  On an absent id it is a no-op signalling success;
on a stored id it sets lastCheck to now, increments the failure counter and
decreases the score by the post-increment counter value, then upserts. -/
def dbNetworkNodeFailCheck (db : DB) (nid : Nat) (now : Nat) :
    Except DbErr DB :=
  if db.ioFail then .error .ErrStoreFailure
  else
    match findNode nid db.nodes with
    | none => .ok db
    | some r =>
        .ok { db with
                nodes := upsert
                  { r with
                      LastCheck := now
                      CheckFailureCount := r.CheckFailureCount + 1
                      Score := r.Score - (r.CheckFailureCount + 1) } db.nodes }

/-- Comparison used by the update-batch query: ascending lastCheck. -/
def lastCheckLE (a b : OperaNode) : Bool :=
  decide (a.LastCheck ≤ b.LastCheck)

/-- Modelled from the spec: db-level due-batch query (spec §4.1 UpdateBatch),
absent from the sources.  Returns up to limit records ordered by ascending
lastCheck (never-checked records carry the epoch-zero value and so sort
first); an unreachable store signals the generic store failure. -/
def dbNetworkNodeUpdateBatch (limit : Nat) (db : DB) :
    Except DbErr (List OperaNode) :=
  if db.ioFail then .error .ErrStoreFailure
  else .ok ((sortBy lastCheckLE db.nodes).take limit)

/-- Comparison used by the bootstrap query: highest score first, ties broken
by most-recent lastResponse first. -/
def bootstrapLE (a b : OperaNode) : Bool :=
  decide (b.Score < a.Score) ||
    (decide (a.Score = b.Score) && decide (b.LastResponse ≤ a.LastResponse))

/-- Modelled from the spec: db-level bootstrap query (spec §4.1
BootstrapSet), absent from the sources.  Returns up to limit records with
checkFailureCount = 0 (hence within any dead-threshold), highest score first,
ties broken by most-recent lastResponse.  Its result carries no error channel
(matching the proxy signature in enode.go), so a store failure yields the
empty set. -/
def dbNetworkNodeBootstrapSet (limit : Nat) (db : DB) : List OperaNode :=
  if db.ioFail then []
  else
    (sortBy bootstrapLE
        (db.nodes.filter (fun r => r.CheckFailureCount == 0))).take limit

/-- Proxy NetworkNode (enode.go): returns the stored record by id. -/
def NetworkNode (db : DB) (nid : Nat) : Except DbErr OperaNode :=
  dbNetworkNode db nid

/-- Proxy StoreNetworkNode (enode.go): stores the record. -/
def StoreNetworkNode (db : DB) (r : OperaNode) : Except DbErr DB :=
  dbStoreNetworkNode db r

/-- Proxy IsNetworkNodeKnown (enode.go): existence check, bare Bool. -/
def IsNetworkNodeKnown (db : DB) (nid : Nat) : Bool :=
  dbIsNetworkNodeKnown db nid

/-- Proxy NetworkNodeConfirmCheck (enode.go): asks the db layer to confirm
the check; on success reports already-known (false); on any error other than
the unknown-node error propagates it; otherwise builds the brand-new record
with score 1, zero failures and firstResponse = lastResponse = lastCheck =
now, stores it, and reports newly-discovered (true) together with the store
result. -/
def NetworkNodeConfirmCheck (cap : Int) (db : DB) (node : Node) (now : Nat) :
    (Bool × Option DbErr) × DB :=
  match dbNetworkNodeConfirmCheck cap db node.id now with
  | .ok db2 => ((false, none), db2)
  | .error e =>
      if e ≠ DbErr.ErrUnknownNetworkNode then ((false, some e), db)
      else
        match dbStoreNetworkNode db
            { Node := node
              Score := 1
              CheckFailureCount := 0
              FirstResponse := now
              LastResponse := now
              LastCheck := now } with
        | .ok db2 => ((true, none), db2)
        | .error e2 => ((true, some e2), db)

/-- Proxy NetworkNodeFailCheck (enode.go): delegates to the db layer. -/
def NetworkNodeFailCheck (db : DB) (node : Node) (now : Nat) :
    Option DbErr × DB :=
  match dbNetworkNodeFailCheck db node.id now with
  | .ok db2 => (none, db2)
  | .error e => (some e, db)

/-- Proxy NetworkNodeUpdateBatch (enode.go): delegates to the db layer and
returns the node addresses of the batch. -/
def NetworkNodeUpdateBatch (limit : Nat) (db : DB) :
    Except DbErr (List Node) :=
  (dbNetworkNodeUpdateBatch limit db).map (List.map (fun r => r.Node))

/-- Proxy NetworkNodeBootstrapSet (enode.go): delegates to the db layer and
returns the node addresses of the bootstrap set; no error channel. -/
def NetworkNodeBootstrapSet (limit : Nat) (db : DB) : List Node :=
  (dbNetworkNodeBootstrapSet limit db).map (fun r => r.Node)

/-- Timestamp well-formedness of a store: every record's timestamps satisfy
firstResponse ≤ lastResponse ≤ lastCheck. -/
def WF (db : DB) : Prop :=
  ∀ r ∈ db.nodes,
    r.FirstResponse ≤ r.LastResponse ∧ r.LastResponse ≤ r.LastCheck

/-- Every stored record was last checked no later than t. -/
def BoundedBy (db : DB) (t : Nat) : Prop :=
  ∀ r ∈ db.nodes, r.LastCheck ≤ t

/-- One registry mutation: a confirmed or a failed check of a node. -/
inductive Op where
  | confirm (node : Node)
  | fail (node : Node)
deriving DecidableEq, Repr

/-- Apply one timed operation to the store through the proxy layer. -/
def step (cap : Int) (db : DB) : Op × Nat → DB
  | (.confirm n, t) => (NetworkNodeConfirmCheck cap db n t).2
  | (.fail n, t) => (NetworkNodeFailCheck db n t).2

/-- Apply a timed trace of operations to the store. -/
def run (cap : Int) (db : DB) : List (Op × Nat) → DB
  | [] => db
  | e :: es => run cap (step cap db e) es

/-- A record found by id indeed carries that id. -/
theorem findNode_id {nid : Nat} :
    ∀ {l : List OperaNode} {r : OperaNode}, findNode nid l = some r →
      r.Node.id = nid := by
  intro l
  induction l with
  | nil => intro r h; simp [findNode] at h
  | cons x xs ih =>
      intro r h
      by_cases hx : x.Node.id = nid
      · simp [findNode, hx] at h
        simpa [← h]
      · simp [findNode, hx] at h
        exact ih h

/-- Lookup after an upsert: the upserted id finds the new record, every other
id finds what it found before. -/
theorem findNode_upsert (r : OperaNode) (l : List OperaNode) (nid : Nat) :
    findNode nid (upsert r l) =
      if r.Node.id = nid then some r else findNode nid l := by
  induction l with
  | nil => simp [upsert, findNode]
  | cons x xs ih =>
      by_cases hx : x.Node.id = r.Node.id
      · by_cases hr : r.Node.id = nid
        · simp [upsert, findNode, hx, hr]
        · have hxn : ¬ x.Node.id = nid := by rw [hx]; exact hr
          simp [upsert, findNode, hx, hr, hxn]
      · by_cases hxn : x.Node.id = nid
        · have hr : ¬ r.Node.id = nid := by
            intro h; exact hx (hxn.trans h.symm)
          have hr2 : ¬ nid = r.Node.id := fun h => hr h.symm
          simp [upsert, findNode, hx, hxn, hr, hr2]
        · simp [upsert, findNode, hx, hxn, ih]

/-- Every element of an upsert is the new record or an old element. -/
theorem mem_upsert {x r : OperaNode} :
    ∀ {l : List OperaNode}, x ∈ upsert r l → x = r ∨ x ∈ l := by
  intro l
  induction l with
  | nil => intro h; simpa [upsert] using h
  | cons y ys ih =>
      intro h
      by_cases hy : y.Node.id = r.Node.id
      · simp [upsert, hy] at h
        rcases h with h | h
        · exact .inl h
        · exact .inr (List.mem_cons_of_mem _ h)
      · simp [upsert, hy] at h
        rcases h with h | h
        · exact .inr (by simp [h])
        · rcases ih h with h2 | h2
          · exact .inl h2
          · exact .inr (List.mem_cons_of_mem _ h2)

/-- Upserting a record whose id is already stored keeps the stored id
sequence unchanged (no record is created). -/
theorem ids_upsert_of_isSome {r : OperaNode} :
    ∀ {l : List OperaNode}, (findNode r.Node.id l).isSome →
      (upsert r l).map (fun x => x.Node.id) = l.map (fun x => x.Node.id) := by
  intro l
  induction l with
  | nil => intro h; simp [findNode] at h
  | cons x xs ih =>
      intro h
      by_cases hx : x.Node.id = r.Node.id
      · simp [upsert, hx]
      · simp [findNode, hx] at h
        simp [upsert, hx, ih h]

/-- Claim C1: for every id not present in the store (and a healthy store),
ConfirmCheck(id, t) reports newly-discovered (true, no error) and upserts a
record with score 1, zero failures and firstResponse = lastResponse =
lastCheck = t; a subsequent lookup of the id yields exactly that record. -/
theorem confirmCheck_creates_new_record (cap : Int) (db : DB) (n : Node)
    (t : Nat) (hio : db.ioFail = false) (hst : db.storeFail = false)
    (hfind : findNode n.id db.nodes = none) :
    (NetworkNodeConfirmCheck cap db n t).1 = (true, none) ∧
      NetworkNode (NetworkNodeConfirmCheck cap db n t).2 n.id =
        .ok { Node := n, Score := 1, CheckFailureCount := 0,
              FirstResponse := t, LastResponse := t, LastCheck := t } := by
  simp [NetworkNodeConfirmCheck, dbNetworkNodeConfirmCheck, dbStoreNetworkNode,
        NetworkNode, dbNetworkNode, hio, hst, hfind, findNode_upsert]

/-- Claim C1 witness: the creation path evaluated on a concrete store. -/
theorem confirmCheck_creates_new_record_witness :
    (⟨[], false, false⟩ : DB).ioFail = false ∧
      (NetworkNodeConfirmCheck 10 ⟨[], false, false⟩ ⟨5, 9⟩ 3).1 =
        (true, none) ∧
      NetworkNode (NetworkNodeConfirmCheck 10 ⟨[], false, false⟩ ⟨5, 9⟩ 3).2 5 =
        .ok { Node := ⟨5, 9⟩, Score := 1, CheckFailureCount := 0,
              FirstResponse := 3, LastResponse := 3, LastCheck := 3 } :=
  ⟨rfl,
    confirmCheck_creates_new_record 10 ⟨[], false, false⟩ ⟨5, 9⟩ 3 rfl rfl rfl⟩

/-- Claim C2: ConfirmCheck distinguishes unknown-peer from store failure:
a successful confirm of a known id reports already-known (false, no error)
and creates no record (the stored id sequence is unchanged); a generic store
error is propagated unchanged with no record created; and only the specific
unknown-node case reports the newly-discovered flag (record creation). -/
theorem confirmCheck_distinguishes_errors (cap : Int) (db : DB) (n : Node)
    (t : Nat) :
    (db.ioFail = false → ∀ r, findNode n.id db.nodes = some r →
      (NetworkNodeConfirmCheck cap db n t).1 = (false, none) ∧
        (NetworkNodeConfirmCheck cap db n t).2.nodes.map (fun x => x.Node.id) =
          db.nodes.map (fun x => x.Node.id)) ∧
    (db.ioFail = true →
      NetworkNodeConfirmCheck cap db n t =
        ((false, some .ErrStoreFailure), db)) ∧
    (db.ioFail = false → findNode n.id db.nodes = none →
      (NetworkNodeConfirmCheck cap db n t).1.1 = true) := by
  refine ⟨?_, ?_, ?_⟩
  · intro hio r hfind
    have hid : r.Node.id = n.id := findNode_id hfind
    constructor
    · simp [NetworkNodeConfirmCheck, dbNetworkNodeConfirmCheck, hio, hfind]
    · simp only [NetworkNodeConfirmCheck, dbNetworkNodeConfirmCheck, hio,
        Bool.false_eq_true, if_false, hfind]
      exact ids_upsert_of_isSome (by simp [hid, hfind])
  · intro hio
    simp [NetworkNodeConfirmCheck, dbNetworkNodeConfirmCheck, hio]
  · intro hio hfind
    cases hst : db.storeFail <;>
      simp [NetworkNodeConfirmCheck, dbNetworkNodeConfirmCheck,
            dbStoreNetworkNode, hio, hst, hfind]

/-- Claim C2 witness: the three branches evaluated on concrete stores. -/
theorem confirmCheck_distinguishes_errors_witness :
    ((⟨[⟨⟨5, 9⟩, 1, 0, 2, 2, 2⟩], false, false⟩ : DB).ioFail = false ∧
      findNode 5 (⟨[⟨⟨5, 9⟩, 1, 0, 2, 2, 2⟩], false, false⟩ : DB).nodes =
        some ⟨⟨5, 9⟩, 1, 0, 2, 2, 2⟩ ∧
      (NetworkNodeConfirmCheck 10
          ⟨[⟨⟨5, 9⟩, 1, 0, 2, 2, 2⟩], false, false⟩ ⟨5, 9⟩ 4).1 =
        (false, none)) ∧
    ((⟨[], true, false⟩ : DB).ioFail = true ∧
      NetworkNodeConfirmCheck 10 ⟨[], true, false⟩ ⟨5, 9⟩ 4 =
        ((false, some .ErrStoreFailure), ⟨[], true, false⟩)) := by
  constructor
  · exact ⟨rfl, by decide,
      ((confirmCheck_distinguishes_errors 10
          ⟨[⟨⟨5, 9⟩, 1, 0, 2, 2, 2⟩], false, false⟩ ⟨5, 9⟩ 4).1 rfl
        ⟨⟨5, 9⟩, 1, 0, 2, 2, 2⟩ (by decide)).1⟩
  · exact ⟨rfl,
      (confirmCheck_distinguishes_errors 10 ⟨[], true, false⟩ ⟨5, 9⟩ 4).2.1 rfl⟩

/-- Claim C3: FailCheck of an id not present in a healthy store is a no-op:
the store state is returned unchanged and no error is surfaced. -/
theorem failCheck_unknown_is_noop (db : DB) (n : Node) (t : Nat)
    (hio : db.ioFail = false) (hfind : findNode n.id db.nodes = none) :
    NetworkNodeFailCheck db n t = (none, db) := by
  simp [NetworkNodeFailCheck, dbNetworkNodeFailCheck, hio, hfind]

/-- Claim C3 witness: the no-op evaluated on a concrete store. -/
theorem failCheck_unknown_is_noop_witness :
    (⟨[⟨⟨5, 9⟩, 1, 0, 2, 2, 2⟩], false, false⟩ : DB).ioFail = false ∧
      NetworkNodeFailCheck ⟨[⟨⟨5, 9⟩, 1, 0, 2, 2, 2⟩], false, false⟩ ⟨6, 9⟩ 4 =
        (none, ⟨[⟨⟨5, 9⟩, 1, 0, 2, 2, 2⟩], false, false⟩) :=
  ⟨rfl, failCheck_unknown_is_noop
    ⟨[⟨⟨5, 9⟩, 1, 0, 2, 2, 2⟩], false, false⟩ ⟨6, 9⟩ 4 rfl (by decide)⟩

/-- Claim C4: FailCheck of a stored record signals success, sets lastCheck to
t, increments checkFailureCount by exactly 1, keeps lastResponse (so it never
decreases), and decreases the score by the post-increment failure count. -/
theorem failCheck_known_updates_record (db : DB) (n : Node) (t : Nat)
    (r : OperaNode) (hio : db.ioFail = false)
    (hfind : findNode n.id db.nodes = some r) :
    (NetworkNodeFailCheck db n t).1 = none ∧
      NetworkNode (NetworkNodeFailCheck db n t).2 n.id =
        .ok { r with
                LastCheck := t
                CheckFailureCount := r.CheckFailureCount + 1
                Score := r.Score - (r.CheckFailureCount + 1) } := by
  have hid : r.Node.id = n.id := findNode_id hfind
  simp [NetworkNodeFailCheck, dbNetworkNodeFailCheck, NetworkNode,
        dbNetworkNode, hio, hfind, findNode_upsert, hid]

/-- Claim C4 witness: one failed check evaluated on a concrete store. -/
theorem failCheck_known_updates_record_witness :
    (⟨[⟨⟨5, 9⟩, 1, 0, 2, 2, 2⟩], false, false⟩ : DB).ioFail = false ∧
      (NetworkNodeFailCheck ⟨[⟨⟨5, 9⟩, 1, 0, 2, 2, 2⟩], false, false⟩
          ⟨5, 9⟩ 4).1 = none ∧
      NetworkNode (NetworkNodeFailCheck
          ⟨[⟨⟨5, 9⟩, 1, 0, 2, 2, 2⟩], false, false⟩ ⟨5, 9⟩ 4).2 5 =
        .ok ⟨⟨5, 9⟩, 0, 1, 2, 2, 4⟩ := by
  have h := failCheck_known_updates_record
    ⟨[⟨⟨5, 9⟩, 1, 0, 2, 2, 2⟩], false, false⟩ ⟨5, 9⟩ 4
    ⟨⟨5, 9⟩, 1, 0, 2, 2, 2⟩ rfl (by decide)
  exact ⟨rfl, h.1, by simpa using h.2⟩

/-- Claim C10: when ConfirmCheck takes the creation branch (the id was
unknown to a store whose lookup worked), the newly-discovered flag is true
regardless of whether the subsequent write of the new record succeeded; in
particular, when the write fails the flag is still true, the store error is
returned alongside it, and no record was persisted. -/
theorem confirmCheck_flag_true_despite_store_failure (cap : Int) (db : DB)
    (n : Node) (t : Nat) (hio : db.ioFail = false)
    (hfind : findNode n.id db.nodes = none) :
    (NetworkNodeConfirmCheck cap db n t).1.1 = true ∧
      (db.storeFail = true →
        (NetworkNodeConfirmCheck cap db n t).1.2 = some .ErrStoreFailure ∧
          (NetworkNodeConfirmCheck cap db n t).2 = db) := by
  cases hst : db.storeFail <;>
    simp [NetworkNodeConfirmCheck, dbNetworkNodeConfirmCheck,
          dbStoreNetworkNode, hio, hst, hfind]

/-- Claim C10 witness: the creation branch evaluated on a concrete store
whose write path fails. -/
theorem confirmCheck_flag_true_despite_store_failure_witness :
    (⟨[], false, true⟩ : DB).ioFail = false ∧
      (NetworkNodeConfirmCheck 10 ⟨[], false, true⟩ ⟨5, 9⟩ 3).1.1 = true ∧
      (NetworkNodeConfirmCheck 10 ⟨[], false, true⟩ ⟨5, 9⟩ 3).1.2 =
        some .ErrStoreFailure ∧
      (NetworkNodeConfirmCheck 10 ⟨[], false, true⟩ ⟨5, 9⟩ 3).2 =
        ⟨[], false, true⟩ := by
  have h := confirmCheck_flag_true_despite_store_failure 10
    ⟨[], false, true⟩ ⟨5, 9⟩ 3 rfl rfl
  exact ⟨rfl, h.1, (h.2 rfl).1, (h.2 rfl).2⟩

/-- Claim C5: registering a never-seen peer at t0 yields score 1; failing it
at t1, t2, t3 yields checkFailureCount 3 and score 1 - (1 + 2 + 3) = -5; a
confirm at t4 then resets checkFailureCount to 0 and adds exactly one reward,
yielding score -4 with lastResponse = t4 (for any score ceiling of at least
-4, in particular any non-negative one). -/
theorem confirm_after_failures_scenario (cap : Int) (n : Node)
    (t0 t1 t2 t3 t4 : Nat) (hcap : -4 ≤ cap) :
    NetworkNode (run cap ⟨[], false, false⟩
        [(.confirm n, t0), (.fail n, t1), (.fail n, t2), (.fail n, t3)])
        n.id =
      .ok { Node := n, Score := -5, CheckFailureCount := 3,
            FirstResponse := t0, LastResponse := t0, LastCheck := t3 } ∧
    NetworkNode (run cap ⟨[], false, false⟩
        [(.confirm n, t0), (.fail n, t1), (.fail n, t2), (.fail n, t3),
          (.confirm n, t4)]) n.id =
      .ok { Node := n, Score := -4, CheckFailureCount := 0,
            FirstResponse := t0, LastResponse := t4, LastCheck := t4 } := by
  have hmin : min (-4 : Int) cap = -4 := min_eq_left hcap
  constructor <;>
    norm_num [run, step, NetworkNodeConfirmCheck, dbNetworkNodeConfirmCheck,
      NetworkNodeFailCheck, dbNetworkNodeFailCheck, dbStoreNetworkNode,
      NetworkNode, dbNetworkNode, findNode, upsert, hmin]

/-- Claim C5 witness: the scenario evaluated at concrete timestamps and a
concrete score ceiling. -/
theorem confirm_after_failures_scenario_witness :
    (-4 : Int) ≤ 100 ∧
      NetworkNode (run 100 ⟨[], false, false⟩
          [(.confirm ⟨5, 9⟩, 10), (.fail ⟨5, 9⟩, 11), (.fail ⟨5, 9⟩, 12),
            (.fail ⟨5, 9⟩, 13), (.confirm ⟨5, 9⟩, 14)]) 5 =
        .ok { Node := ⟨5, 9⟩, Score := -4, CheckFailureCount := 0,
              FirstResponse := 10, LastResponse := 14, LastCheck := 14 } :=
  ⟨by decide,
    (confirm_after_failures_scenario 100 ⟨5, 9⟩ 10 11 12 13 14 (by decide)).2⟩

/-- A record found by id is one of the stored records. -/
theorem findNode_mem {nid : Nat} :
    ∀ {l : List OperaNode} {r : OperaNode}, findNode nid l = some r →
      r ∈ l := by
  intro l
  induction l with
  | nil => intro r h; simp [findNode] at h
  | cons x xs ih =>
      intro r h
      by_cases hx : x.Node.id = nid
      · simp [findNode, hx] at h
        simp [h]
      · simp [findNode, hx] at h
        exact List.mem_cons_of_mem _ (ih h)

/-- One proxy-level operation at time t preserves timestamp well-formedness
and keeps every record checked no later than t, provided the store held both
properties before the call. -/
theorem step_preserves_WF (cap : Int) (db : DB) (op : Op) (t : Nat)
    (hwf : WF db) (hb : BoundedBy db t) :
    WF (step cap db (op, t)) ∧ BoundedBy (step cap db (op, t)) t := by
  cases op with
  | confirm n =>
      cases hio : db.ioFail with
      | true =>
          simp [step, NetworkNodeConfirmCheck, dbNetworkNodeConfirmCheck, hio]
          exact ⟨hwf, hb⟩
      | false =>
          cases hf : findNode n.id db.nodes with
          | some r =>
              have hr := hwf r (findNode_mem hf)
              have hbr := hb r (findNode_mem hf)
              simp [step, NetworkNodeConfirmCheck, dbNetworkNodeConfirmCheck,
                    hio, hf]
              constructor
              · intro x hx
                rcases mem_upsert hx with rfl | hxl
                · exact ⟨le_trans hr.1 (le_trans hr.2 hbr), le_refl t⟩
                · exact hwf x hxl
              · intro x hx
                rcases mem_upsert hx with rfl | hxl
                · exact le_refl t
                · exact hb x hxl
          | none =>
              cases hst : db.storeFail with
              | true =>
                  simp [step, NetworkNodeConfirmCheck,
                        dbNetworkNodeConfirmCheck, dbStoreNetworkNode, hio,
                        hst, hf]
                  exact ⟨hwf, hb⟩
              | false =>
                  simp [step, NetworkNodeConfirmCheck,
                        dbNetworkNodeConfirmCheck, dbStoreNetworkNode, hio,
                        hst, hf]
                  constructor
                  · intro x hx
                    rcases mem_upsert hx with rfl | hxl
                    · exact ⟨le_refl t, le_refl t⟩
                    · exact hwf x hxl
                  · intro x hx
                    rcases mem_upsert hx with rfl | hxl
                    · exact le_refl t
                    · exact hb x hxl
  | fail n =>
      cases hio : db.ioFail with
      | true =>
          simp [step, NetworkNodeFailCheck, dbNetworkNodeFailCheck, hio]
          exact ⟨hwf, hb⟩
      | false =>
          cases hf : findNode n.id db.nodes with
          | some r =>
              have hr := hwf r (findNode_mem hf)
              have hbr := hb r (findNode_mem hf)
              simp [step, NetworkNodeFailCheck, dbNetworkNodeFailCheck, hio,
                    hf]
              constructor
              · intro x hx
                rcases mem_upsert hx with rfl | hxl
                · exact ⟨hr.1, le_trans hr.2 hbr⟩
                · exact hwf x hxl
              · intro x hx
                rcases mem_upsert hx with rfl | hxl
                · exact le_refl t
                · exact hb x hxl
          | none =>
              simp [step, NetworkNodeFailCheck, dbNetworkNodeFailCheck, hio,
                    hf]
              exact ⟨hwf, hb⟩

/-- Running a trace whose timestamps are non-decreasing, and which starts no
earlier than every stored lastCheck, preserves well-formedness. -/
theorem run_preserves_WF (cap : Int) (tr : List (Op × Nat)) :
    ∀ db : DB, WF db → (∀ e ∈ tr, BoundedBy db e.2) →
      List.Pairwise (fun a b => a.2 ≤ b.2) tr → WF (run cap db tr) := by
  induction tr with
  | nil => intro db hwf _ _; exact hwf
  | cons e es ih =>
      intro db hwf hb hp
      obtain ⟨op, t⟩ := e
      have h1 := step_preserves_WF cap db op t
        hwf (hb (op, t) (List.mem_cons_self _ _))
      rw [run]
      apply ih
      · exact h1.1
      · intro e2 he2 r hr
        exact le_trans (h1.2 r hr)
          ((List.pairwise_cons.mp hp).1 e2 he2)
      · exact (List.pairwise_cons.mp hp).2

/-- Claim C6: after every sequence of ConfirmCheck/FailCheck operations
whose call times are non-decreasing (as wall-clock times taken inside the
calls are), every stored record satisfies
lastCheck ≥ lastResponse ≥ firstResponse. -/
theorem timestamps_ordered_after_run (cap : Int) (tr : List (Op × Nat))
    (hmono : List.Pairwise (fun a b => a.2 ≤ b.2) tr) :
    ∀ r ∈ (run cap ⟨[], false, false⟩ tr).nodes,
      r.FirstResponse ≤ r.LastResponse ∧ r.LastResponse ≤ r.LastCheck := by
  apply run_preserves_WF cap tr ⟨[], false, false⟩ ?_ ?_ hmono
  · intro r hr
    simp at hr
  · intro e _ r hr
    simp at hr

/-- Claim C6 witness: a concrete confirm-then-fail trace, with the resulting
concrete record's timestamp ordering extracted from the theorem. -/
theorem timestamps_ordered_after_run_witness :
    List.Pairwise (fun (a : Op × Nat) (b : Op × Nat) => a.2 ≤ b.2)
        [(Op.confirm ⟨5, 9⟩, 1), (Op.fail ⟨5, 9⟩, 2)] ∧
      (⟨⟨5, 9⟩, 0, 1, 1, 1, 2⟩ : OperaNode) ∈
        (run 100 ⟨[], false, false⟩
          [(Op.confirm ⟨5, 9⟩, 1), (Op.fail ⟨5, 9⟩, 2)]).nodes ∧
      (⟨⟨5, 9⟩, 0, 1, 1, 1, 2⟩ : OperaNode).FirstResponse ≤
          (⟨⟨5, 9⟩, 0, 1, 1, 1, 2⟩ : OperaNode).LastResponse ∧
        (⟨⟨5, 9⟩, 0, 1, 1, 1, 2⟩ : OperaNode).LastResponse ≤
          (⟨⟨5, 9⟩, 0, 1, 1, 1, 2⟩ : OperaNode).LastCheck :=
  ⟨by decide, by decide,
    timestamps_ordered_after_run 100
      [(Op.confirm ⟨5, 9⟩, 1), (Op.fail ⟨5, 9⟩, 2)] (by decide)
      ⟨⟨5, 9⟩, 0, 1, 1, 1, 2⟩ (by decide)⟩

/-- The ordered insert permutes to consing the inserted element. -/
theorem insertBy_perm {α : Type} (le : α → α → Bool) (x : α) :
    ∀ l : List α, (insertBy le x l).Perm (x :: l) := by
  intro l
  induction l with
  | nil => simp [insertBy]
  | cons y ys ih =>
      by_cases hxy : le x y = true
      · simp [insertBy, hxy]
      · simp only [insertBy, hxy, if_false, Bool.false_eq_true]
        exact (ih.cons y).trans (List.Perm.swap x y ys)

/-- The insertion sort is a permutation of its input. -/
theorem sortBy_perm {α : Type} (le : α → α → Bool) :
    ∀ l : List α, (sortBy le l).Perm l := by
  intro l
  induction l with
  | nil => simp [sortBy]
  | cons x xs ih =>
      exact (insertBy_perm le x (sortBy le xs)).trans (ih.cons x)

/-- The ordered insert keeps the list pairwise ordered, for a transitive and
total comparison. -/
theorem insertBy_pairwise {α : Type} (le : α → α → Bool)
    (htr : ∀ a b c, le a b = true → le b c = true → le a c = true)
    (hto : ∀ a b, (le a b || le b a) = true) (x : α) :
    ∀ l : List α, List.Pairwise (fun a b => le a b = true) l →
      List.Pairwise (fun a b => le a b = true) (insertBy le x l) := by
  intro l
  induction l with
  | nil => intro _; simp [insertBy]
  | cons y ys ih =>
      intro h
      have hy := (List.pairwise_cons.mp h).1
      have hys := (List.pairwise_cons.mp h).2
      by_cases hxy : le x y = true
      · simp only [insertBy, hxy, if_true]
        exact List.pairwise_cons.mpr
          ⟨by
            intro z hz
            rcases List.mem_cons.mp hz with rfl | hz2
            · exact hxy
            · exact htr x y z hxy (hy z hz2), h⟩
      · have hyx : le y x = true := by
          have := hto x y
          simp [hxy] at this
          exact this
        simp only [insertBy, hxy, if_false, Bool.false_eq_true]
        exact List.pairwise_cons.mpr
          ⟨by
            intro z hz
            rcases List.mem_cons.mp ((insertBy_perm le x ys).mem_iff.mp hz)
              with rfl | h2
            · exact hyx
            · exact hy z h2, ih hys⟩

/-- The insertion sort orders its output pairwise, for a transitive and total
comparison. -/
theorem sortBy_pairwise {α : Type} (le : α → α → Bool)
    (htr : ∀ a b c, le a b = true → le b c = true → le a c = true)
    (hto : ∀ a b, (le a b || le b a) = true) :
    ∀ l : List α, List.Pairwise (fun a b => le a b = true) (sortBy le l) := by
  intro l
  induction l with
  | nil => simp [sortBy]
  | cons x xs ih => exact insertBy_pairwise le htr hto x _ ih

/-- The update-batch comparison is transitive. -/
theorem lastCheckLE_trans (a b c : OperaNode) (h1 : lastCheckLE a b = true)
    (h2 : lastCheckLE b c = true) : lastCheckLE a c = true := by
  simp [lastCheckLE] at h1 h2 ⊢
  omega

/-- The update-batch comparison is total. -/
theorem lastCheckLE_total (a b : OperaNode) :
    (lastCheckLE a b || lastCheckLE b a) = true := by
  simp [lastCheckLE]
  omega

/-- Claim C7: on a store with duplicate-free ids, a successful UpdateBatch
returns at most limit records, duplicate-free in id, in non-decreasing
lastCheck order (never-checked records carry the epoch-zero lastCheck 0 and
therefore sort first of all). -/
theorem updateBatch_bounded_nodup_sorted (limit : Nat) (db : DB)
    (res : List OperaNode)
    (hnd : (db.nodes.map (fun r => r.Node.id)).Nodup)
    (hres : dbNetworkNodeUpdateBatch limit db = .ok res) :
    res.length ≤ limit ∧ (res.map (fun r => r.Node.id)).Nodup ∧
      List.Pairwise (fun a b => a.LastCheck ≤ b.LastCheck) res := by
  cases hio : db.ioFail with
  | true => rw [dbNetworkNodeUpdateBatch, hio] at hres; simp at hres
  | false =>
      rw [dbNetworkNodeUpdateBatch, hio] at hres
      simp only [Bool.false_eq_true, if_false, Except.ok.injEq] at hres
      refine ⟨?_, ?_, ?_⟩
      · rw [← hres]
        exact List.length_take_le limit _
      · have hperm :=
          (sortBy_perm lastCheckLE db.nodes).map (fun r => r.Node.id)
        have h2 : ((sortBy lastCheckLE db.nodes).map
            (fun r => r.Node.id)).Nodup := hperm.symm.nodup hnd
        rw [← hres]
        exact List.Nodup.sublist ((List.take_sublist _ _).map _) h2
      · have hs := sortBy_pairwise lastCheckLE lastCheckLE_trans
          lastCheckLE_total db.nodes
        have hs2 : List.Pairwise (fun a b => a.LastCheck ≤ b.LastCheck)
            (sortBy lastCheckLE db.nodes) :=
          hs.imp (by intro a b h; simpa [lastCheckLE] using h)
        rw [← hres]
        exact List.Pairwise.sublist (List.take_sublist _ _) hs2

/-- Claim C7 witness: UpdateBatch of limit 2 on a concrete three-record
store, with the conclusions extracted from the theorem. -/
theorem updateBatch_bounded_nodup_sorted_witness :
    (((⟨[⟨⟨1, 7⟩, 1, 0, 0, 0, 5⟩, ⟨⟨2, 8⟩, 1, 0, 0, 0, 0⟩,
          ⟨⟨3, 9⟩, 1, 0, 0, 0, 3⟩], false, false⟩ : DB).nodes.map
        (fun r => r.Node.id)).Nodup ∧
      dbNetworkNodeUpdateBatch 2
          ⟨[⟨⟨1, 7⟩, 1, 0, 0, 0, 5⟩, ⟨⟨2, 8⟩, 1, 0, 0, 0, 0⟩,
            ⟨⟨3, 9⟩, 1, 0, 0, 0, 3⟩], false, false⟩ =
        .ok [⟨⟨2, 8⟩, 1, 0, 0, 0, 0⟩, ⟨⟨3, 9⟩, 1, 0, 0, 0, 3⟩]) ∧
    ([⟨⟨2, 8⟩, 1, 0, 0, 0, 0⟩, ⟨⟨3, 9⟩, 1, 0, 0, 0, 3⟩] :
        List OperaNode).length ≤ 2 ∧
      (([⟨⟨2, 8⟩, 1, 0, 0, 0, 0⟩, ⟨⟨3, 9⟩, 1, 0, 0, 0, 3⟩] :
          List OperaNode).map (fun r => r.Node.id)).Nodup ∧
      List.Pairwise (fun (a : OperaNode) (b : OperaNode) =>
          a.LastCheck ≤ b.LastCheck)
        [⟨⟨2, 8⟩, 1, 0, 0, 0, 0⟩, ⟨⟨3, 9⟩, 1, 0, 0, 0, 3⟩] :=
  ⟨⟨by decide, by rfl⟩,
    updateBatch_bounded_nodup_sorted 2
      ⟨[⟨⟨1, 7⟩, 1, 0, 0, 0, 5⟩, ⟨⟨2, 8⟩, 1, 0, 0, 0, 0⟩,
        ⟨⟨3, 9⟩, 1, 0, 0, 0, 3⟩], false, false⟩
      [⟨⟨2, 8⟩, 1, 0, 0, 0, 0⟩, ⟨⟨3, 9⟩, 1, 0, 0, 0, 3⟩]
      (by decide) (by rfl)⟩

/-- The bootstrap comparison (score descending, then lastResponse
descending) is transitive. -/
theorem bootstrapLE_trans (a b c : OperaNode) (h1 : bootstrapLE a b = true)
    (h2 : bootstrapLE b c = true) : bootstrapLE a c = true := by
  simp [bootstrapLE] at h1 h2 ⊢
  omega

/-- The bootstrap comparison is total. -/
theorem bootstrapLE_total (a b : OperaNode) :
    (bootstrapLE a b || bootstrapLE b a) = true := by
  simp [bootstrapLE]
  omega

/-- Claim C8: every record BootstrapSet returns has checkFailureCount 0 (so
none exceeds any dead-threshold); every returned record is at least as good,
in (score, lastResponse) order, as every eligible zero-failure record left
out; and on the concrete two-peer store with scores 5 and 2 the proxy
BootstrapSet of limit 1 returns exactly the score-5 peer. -/
theorem bootstrapSet_highest_score (limit : Nat) (db : DB) :
    (∀ r ∈ dbNetworkNodeBootstrapSet limit db,
        r.CheckFailureCount = 0 ∧
          ∀ deadThreshold : Nat, ¬ deadThreshold < r.CheckFailureCount) ∧
      (∀ a ∈ dbNetworkNodeBootstrapSet limit db, ∀ b ∈ db.nodes,
        b.CheckFailureCount = 0 → b ∉ dbNetworkNodeBootstrapSet limit db →
          b.Score < a.Score ∨
            (a.Score = b.Score ∧ b.LastResponse ≤ a.LastResponse)) ∧
      NetworkNodeBootstrapSet 1
          ⟨[⟨⟨1, 8⟩, 5, 0, 4, 4, 4⟩, ⟨⟨2, 9⟩, 2, 0, 4, 4, 4⟩],
            false, false⟩ =
        [⟨1, 8⟩] := by
  refine ⟨?_, ?_, by decide⟩
  · intro r hr
    cases hio : db.ioFail with
    | true => rw [dbNetworkNodeBootstrapSet, hio] at hr; simp at hr
    | false =>
        rw [dbNetworkNodeBootstrapSet, hio] at hr
        simp only [Bool.false_eq_true, if_false] at hr
        have h1 : r ∈ sortBy bootstrapLE
            (db.nodes.filter fun x => x.CheckFailureCount == 0) :=
          (List.take_sublist _ _).subset hr
        have h2 : r ∈ db.nodes.filter (fun x => x.CheckFailureCount == 0) :=
          (sortBy_perm _ _).subset h1
        have h3 := (List.mem_filter.mp h2).2
        simp at h3
        exact ⟨h3, fun d => by omega⟩
  · intro a ha b hb hbc hbn
    cases hio : db.ioFail with
    | true => rw [dbNetworkNodeBootstrapSet, hio] at ha; simp at ha
    | false =>
        rw [dbNetworkNodeBootstrapSet, hio] at ha hbn
        simp only [Bool.false_eq_true, if_false] at ha hbn
        have hbf : b ∈ db.nodes.filter (fun x => x.CheckFailureCount == 0) :=
          List.mem_filter.mpr ⟨hb, by simp [hbc]⟩
        have hbs : b ∈ sortBy bootstrapLE
            (db.nodes.filter fun x => x.CheckFailureCount == 0) :=
          (sortBy_perm _ _).symm.subset hbf
        have hsplit := List.take_append_drop limit (sortBy bootstrapLE
          (db.nodes.filter fun x => x.CheckFailureCount == 0))
        have hbs2 : b ∈ (sortBy bootstrapLE
            (db.nodes.filter fun x => x.CheckFailureCount == 0)).take limit ++
              (sortBy bootstrapLE
                (db.nodes.filter fun x => x.CheckFailureCount == 0)).drop
                limit := by
          rw [hsplit]; exact hbs
        have hbd : b ∈ (sortBy bootstrapLE
            (db.nodes.filter fun x => x.CheckFailureCount == 0)).drop
              limit := by
          rcases List.mem_append.mp hbs2 with h | h
          · exact absurd h hbn
          · exact h
        have hpw := sortBy_pairwise bootstrapLE bootstrapLE_trans
          bootstrapLE_total
          (db.nodes.filter fun x => x.CheckFailureCount == 0)
        have hpw2 : List.Pairwise (fun x y => bootstrapLE x y = true)
            ((sortBy bootstrapLE
              (db.nodes.filter fun x => x.CheckFailureCount == 0)).take
                limit ++
              (sortBy bootstrapLE
                (db.nodes.filter fun x => x.CheckFailureCount == 0)).drop
                limit) := by
          rw [hsplit]; exact hpw
        have hle := (List.pairwise_append.mp hpw2).2.2 a ha b hbd
        simpa [bootstrapLE] using hle

/-- Claim C8 witness: the two-peer store evaluated concretely, with the
highest-score comparison extracted from the theorem. -/
theorem bootstrapSet_highest_score_witness :
    (⟨⟨1, 8⟩, 5, 0, 4, 4, 4⟩ : OperaNode) ∈
        dbNetworkNodeBootstrapSet 1
          ⟨[⟨⟨1, 8⟩, 5, 0, 4, 4, 4⟩, ⟨⟨2, 9⟩, 2, 0, 4, 4, 4⟩],
            false, false⟩ ∧
      (⟨⟨2, 9⟩, 2, 0, 4, 4, 4⟩ : OperaNode) ∉
        dbNetworkNodeBootstrapSet 1
          ⟨[⟨⟨1, 8⟩, 5, 0, 4, 4, 4⟩, ⟨⟨2, 9⟩, 2, 0, 4, 4, 4⟩],
            false, false⟩ ∧
      ((⟨⟨2, 9⟩, 2, 0, 4, 4, 4⟩ : OperaNode).Score <
          (⟨⟨1, 8⟩, 5, 0, 4, 4, 4⟩ : OperaNode).Score ∨
        ((⟨⟨1, 8⟩, 5, 0, 4, 4, 4⟩ : OperaNode).Score =
            (⟨⟨2, 9⟩, 2, 0, 4, 4, 4⟩ : OperaNode).Score ∧
          (⟨⟨2, 9⟩, 2, 0, 4, 4, 4⟩ : OperaNode).LastResponse ≤
            (⟨⟨1, 8⟩, 5, 0, 4, 4, 4⟩ : OperaNode).LastResponse)) :=
  ⟨by decide, by decide,
    (bootstrapSet_highest_score 1
        ⟨[⟨⟨1, 8⟩, 5, 0, 4, 4, 4⟩, ⟨⟨2, 9⟩, 2, 0, 4, 4, 4⟩],
          false, false⟩).2.1
      ⟨⟨1, 8⟩, 5, 0, 4, 4, 4⟩ (by decide)
      ⟨⟨2, 9⟩, 2, 0, 4, 4, 4⟩ (by decide) (by decide) (by decide)⟩

/-- Claim C9 counterexample: IsNetworkNodeKnown and NetworkNodeBootstrapSet
cannot report a store failure distinctly from a normal false/empty result:
on a failing store they return exactly the same false and empty values as on
a healthy empty store (their result types, per the proxy signatures in the
source, carry no error at all). -/
theorem isKnown_bootstrapSet_no_error_channel :
    IsNetworkNodeKnown ⟨[], true, true⟩ 7 =
        IsNetworkNodeKnown ⟨[], false, false⟩ 7 ∧
      NetworkNodeBootstrapSet 3 ⟨[], true, true⟩ =
        NetworkNodeBootstrapSet 3 ⟨[], false, false⟩ ∧
      IsNetworkNodeKnown ⟨[], true, true⟩ 7 = false ∧
      NetworkNodeBootstrapSet 3 ⟨[], true, true⟩ = [] := by
  decide

/-- Claim C9 amended: every registry operation with an error return value
(lookup, store, confirm-check, fail-check, update-batch) signals the generic
store-failure error when the store has an I/O problem; IsNetworkNodeKnown
and NetworkNodeBootstrapSet have no error channel and return the plain
false/empty results instead. -/
theorem store_failure_propagation (db : DB) (n : Node) (nid : Nat) (t : Nat)
    (cap : Int) (limit : Nat) (r : OperaNode)
    (hio : db.ioFail = true) (hst : db.storeFail = true) :
    NetworkNode db nid = .error .ErrStoreFailure ∧
      StoreNetworkNode db r = .error .ErrStoreFailure ∧
      (NetworkNodeConfirmCheck cap db n t).1.2 = some .ErrStoreFailure ∧
      (NetworkNodeFailCheck db n t).1 = some .ErrStoreFailure ∧
      NetworkNodeUpdateBatch limit db = .error .ErrStoreFailure ∧
      IsNetworkNodeKnown db nid = false ∧
      NetworkNodeBootstrapSet limit db = [] := by
  simp [NetworkNode, dbNetworkNode, StoreNetworkNode, dbStoreNetworkNode,
        NetworkNodeConfirmCheck, dbNetworkNodeConfirmCheck,
        NetworkNodeFailCheck, dbNetworkNodeFailCheck,
        NetworkNodeUpdateBatch, dbNetworkNodeUpdateBatch, Except.map,
        IsNetworkNodeKnown, dbIsNetworkNodeKnown,
        NetworkNodeBootstrapSet, dbNetworkNodeBootstrapSet, hio, hst]

/-- Claim C9 amended witness: the propagation evaluated on a concrete
failing store. -/
theorem store_failure_propagation_witness :
    (⟨[], true, true⟩ : DB).ioFail = true ∧
      NetworkNode ⟨[], true, true⟩ 7 = .error .ErrStoreFailure ∧
      (NetworkNodeFailCheck ⟨[], true, true⟩ ⟨7, 8⟩ 1).1 =
        some .ErrStoreFailure ∧
      NetworkNodeUpdateBatch 3 ⟨[], true, true⟩ =
        .error .ErrStoreFailure := by
  have h := store_failure_propagation ⟨[], true, true⟩ ⟨7, 8⟩ 7 1 10 3
    ⟨⟨7, 8⟩, 1, 0, 1, 1, 1⟩ rfl rfl
  exact ⟨rfl, h.1, h.2.2.2.1, h.2.2.2.2.1⟩

end NodeRegistry
